import Mathlib

/-!
Shallow embedding of the nova_voice_engine_V2 core (C++), used to check the
natural-language specification against the code.

Conventions of the embedding:
* machine integers (`uint8_t`, `uint16_t`, `uint32_t`, `size_t`) are `Nat`,
  with an explicit `% 2^32` where the code can overflow (sequence counters);
  `int16_t` samples are `Int`, kept in [-32768, 32767] by the operations;
* `float` values and literals are modelled as exact rationals (`ℚ`); a
  `static_cast<uint32_t>`/`static_cast<int16_t>` of a float is modelled as
  truncation toward zero (`ratTruncToInt` / `ratTruncToNat`);
* `std::optional` / nullable `shared_ptr` results are `Option`;
* `std::queue` is a `List` (front = head); mutexes and condition variables
  are dropped: each member function becomes a pure function on the object
  state, and the concurrent system is studied one call at a time;
* `memcpy` between byte buffers and multi-byte integers depends on the host
  byte order, so it is parameterised by `Endian`.
-/

namespace NovaVoice

/-- Host byte order, distinguishing the two possible layouts a
`memcpy(&u32, bytes, 4)` can realise. -/
inductive Endian where
  | little
  | big
deriving DecidableEq, Repr

/-- Value of a `uint32_t` whose four memory bytes are `b0 b1 b2 b3` (in
address order), on a host with byte order `e`. -/
def bytesToU32 (e : Endian) (b0 b1 b2 b3 : Nat) : Nat :=
  match e with
  | .little => b0 + 2^8 * b1 + 2^16 * b2 + 2^24 * b3
  | .big    => b3 + 2^8 * b2 + 2^16 * b1 + 2^24 * b0

/-- Memory bytes (in address order) of a `uint32_t` holding `n`, on a host
with byte order `e`. -/
def u32ToBytes (e : Endian) (n : Nat) : List Nat :=
  match e with
  | .little => [n % 2^8, n / 2^8 % 2^8, n / 2^16 % 2^8, n / 2^24 % 2^8]
  | .big    => [n / 2^24 % 2^8, n / 2^16 % 2^8, n / 2^8 % 2^8, n % 2^8]

/-- AudioPacket (BufferManager.h): payload bytes plus a `uint32_t` sequence
number. The acquisition timestamp (a real clock read) and the redundant
`size` field (`size == data.size()` at construction) are omitted. -/
structure AudioPacket where
  data : List Nat
  sequenceNumber : Nat
deriving DecidableEq, Repr

/-- UDPManager::serializePacket (part_006 lines 259-278): the sequence
number's four memory bytes followed by the payload bytes. The byte order of
the sequence number is whatever the host uses (`memcpy` of the `uint32_t`). -/
def serializePacket (e : Endian) (p : AudioPacket) : List Nat :=
  u32ToBytes e p.sequenceNumber ++ p.data

/-- UDPManager::deserializePacket (part_006 lines 243-257): datagrams of
fewer than 4 bytes yield no packet (`nullptr`); otherwise the first four
bytes are `memcpy`-ed into the `uint32_t` sequence number (host byte order)
and the rest is the payload. -/
def deserializePacket (e : Endian) (d : List Nat) : Option AudioPacket :=
  match d with
  | b0 :: b1 :: b2 :: b3 :: rest => some ⟨rest, bytesToU32 e b0 b1 b2 b3⟩
  | _ => none

/-- BufferManager (BufferManager.h / BufferManager.cpp): two bounded FIFO
queues (input: capture → network, output: network → playback) with a shared
dropped counter, an input-side sequence counter and a total counter. -/
structure BufferManager where
  inputBuffer : List AudioPacket
  outputBuffer : List AudioPacket
  maxBufferSize : Nat
  nextSequenceNumber : Nat
  droppedPackets : Nat
  totalPackets : Nat
deriving DecidableEq, Repr

/-- BufferManager::BufferManager (BufferManager.cpp lines 6-11):
`maxBufferSize_ = Config::BUFFER_COUNT = 10`, counters zero, queues empty. -/
def BufferManager.new : BufferManager :=
  { inputBuffer := [], outputBuffer := [], maxBufferSize := 10,
    nextSequenceNumber := 0, droppedPackets := 0, totalPackets := 0 }

/-- BufferManager::isBufferFull (lines 139-141): `buffer.size() >= maxBufferSize_`. -/
def BufferManager.isBufferFull (s : BufferManager) (buffer : List AudioPacket) : Bool :=
  buffer.length ≥ s.maxBufferSize

/-- BufferManager::removeOldPackets (lines 143-147): pop the front (oldest)
element if the queue is nonempty. -/
def removeOldPackets (buffer : List AudioPacket) : List AudioPacket :=
  buffer.tail

/-- BufferManager::pushAudioPacket (lines 17-35): a null packet is rejected;
on a full input queue the oldest packet is removed and the dropped counter
incremented; the new packet is enqueued at the back; returns true. -/
def BufferManager.pushAudioPacket (s : BufferManager) (packet : Option AudioPacket) :
    Bool × BufferManager :=
  match packet with
  | none => (false, s)
  | some p =>
    if s.isBufferFull s.inputBuffer then
      (true, { s with inputBuffer := removeOldPackets s.inputBuffer ++ [p],
                      droppedPackets := s.droppedPackets + 1,
                      totalPackets := s.totalPackets + 1 })
    else
      (true, { s with inputBuffer := s.inputBuffer ++ [p],
                      totalPackets := s.totalPackets + 1 })

/-- BufferManager::popAudioPacket (lines 37-48): return and remove the front
of the input queue; `nullptr` when empty. -/
def BufferManager.popAudioPacket (s : BufferManager) :
    Option AudioPacket × BufferManager :=
  match s.inputBuffer with
  | [] => (none, s)
  | p :: rest => (some p, { s with inputBuffer := rest })

/-- BufferManager::pushInputBuffer (lines 50-57): empty data is rejected;
otherwise a packet is built with the next input-side sequence number
(`nextSequenceNumber_++`, a `uint32_t`) and pushed. -/
def BufferManager.pushInputBuffer (s : BufferManager) (data : List Nat) :
    Bool × BufferManager :=
  if data = [] then (false, s)
  else
    BufferManager.pushAudioPacket
      { s with nextSequenceNumber := (s.nextSequenceNumber + 1) % 2^32 }
      (some ⟨data, s.nextSequenceNumber⟩)

/-- BufferManager::pushNetworkPacket (lines 63-80): like `pushAudioPacket`
but on the output queue; the total counter is not incremented here. -/
def BufferManager.pushNetworkPacket (s : BufferManager) (packet : Option AudioPacket) :
    Bool × BufferManager :=
  match packet with
  | none => (false, s)
  | some p =>
    if s.isBufferFull s.outputBuffer then
      (true, { s with outputBuffer := removeOldPackets s.outputBuffer ++ [p],
                      droppedPackets := s.droppedPackets + 1 })
    else
      (true, { s with outputBuffer := s.outputBuffer ++ [p] })

/-- BufferManager::getNextPlaybackPacket (lines 82-97): after the (up to
10 ms) wait, return and remove the front of the output queue, `nullptr` when
still empty. The bounded wait itself has no effect on the state. -/
def BufferManager.getNextPlaybackPacket (s : BufferManager) :
    Option AudioPacket × BufferManager :=
  match s.outputBuffer with
  | [] => (none, s)
  | p :: rest => (some p, { s with outputBuffer := rest })

/-- One client-visible operation on the input FIFO of a BufferManager:
a direct push of a (possibly null) packet, a push of raw captured data
(which assigns the sequence number), or a pop. -/
inductive BufOp where
  | push (packet : Option AudioPacket)
  | pushIn (data : List Nat)
  | pop
deriving DecidableEq, Repr

/-- Effect of one `BufOp` on the BufferManager state (return values dropped). -/
def bufStep (s : BufferManager) : BufOp → BufferManager
  | .push p => (s.pushAudioPacket p).2
  | .pushIn d => (s.pushInputBuffer d).2
  | .pop => s.popAudioPacket.2

/-- UDPManager (UDPManager.h lines 16-86): the state read or written by the
receive path. The socket descriptor, addresses and the raw-data callback are
omitted; the exposed statistics counters are exactly `sentPackets_`,
`receivedPackets_` and `failedSends_` (UDPManager.h lines 37-40). -/
structure UDPManager where
  isRunning : Bool
  isServer : Bool
  sentPackets : Nat
  receivedPackets : Nat
  failedSends : Nat
  bufferManager : Option BufferManager
deriving DecidableEq, Repr

/-- UDPManager::UDPManager (part_006 lines 9-18): stopped, counters zero,
no buffer manager attached yet. -/
def UDPManager.new : UDPManager :=
  { isRunning := false, isServer := false, sentPackets := 0,
    receivedPackets := 0, failedSends := 0, bufferManager := none }

/-- One iteration of UDPManager::receiverLoop for a datagram delivered by
`recvfrom` (part_006 lines 187-208, `bytesReceived = data.length`), including
UDPManager::processReceivedData (lines 210-241): deserialize, push a
successfully deserialized packet into the playback (output) buffer, and
count the reception. The result pairs the new state with the packet handed
to the `onPacketReceived` callback (`none` when deserialization returned
`nullptr`). The loop keeps running afterwards: `isRunning` is not touched
(the loop exits only on a negative `recvfrom` result). Learning of the
remote address in server mode is omitted. -/
def receiveDatagram (e : Endian) (s : UDPManager) (data : List Nat) :
    UDPManager × Option AudioPacket :=
  if data.length = 0 then (s, none)
  else
    let p? := deserializePacket e data
    let bm' := match p?, s.bufferManager with
      | some p, some bm => some (bm.pushNetworkPacket (some p)).2
      | _, _ => s.bufferManager
    ({ s with bufferManager := bm', receivedPackets := s.receivedPackets + 1 }, p?)

/-- EncodedPacket (LyraCodec.h lines 31-41): payload bytes, `uint32_t`
sequence number and the bitrate used at encode time. The send timestamp
(a real clock read) is omitted. -/
structure EncodedPacket where
  data : List Nat
  sequenceNumber : Nat
  bitrate : Nat
deriving DecidableEq, Repr

/-- LyraCodec state (LyraCodec.h lines 92-110). Lyra itself is never
available in this build (`initializeLyra` returns false, LyraCodec.cpp
lines 251-268), so the raw pass-through is always the active implementation
and no encoder/decoder handles are modelled. -/
structure LyraCodec where
  initialized : Bool
  sampleRate : Nat
  channels : Nat
  currentBitrate : Nat
  frameSize : Nat
  nextSequenceNumber : Nat
  encodedFrames : Nat
  decodedFrames : Nat
  encodingErrors : Nat
  decodingErrors : Nat
deriving DecidableEq, Repr

/-- LyraCodec::LyraCodec (LyraCodec.cpp lines 15-31): defaults from Config. -/
def LyraCodec.new : LyraCodec :=
  { initialized := false, sampleRate := 16000, channels := 1,
    currentBitrate := 6000, frameSize := 320, nextSequenceNumber := 0,
    encodedFrames := 0, decodedFrames := 0, encodingErrors := 0,
    decodingErrors := 0 }

/-- CodecUtils::isValidBitrate (LyraCodec.cpp lines 387-389):
`LYRA_MIN_BITRATE <= bitrate <= LYRA_MAX_BITRATE`. -/
def isValidBitrate (bitrate : Nat) : Bool :=
  3200 ≤ bitrate ∧ bitrate ≤ 9200

/-- LyraCodec::validateParameters (LyraCodec.cpp lines 339-356). -/
def validateParameters (sampleRate channels bitrate : Nat) : Bool :=
  channels = 1 ∧ (sampleRate = 16000 ∨ sampleRate = 32000 ∨ sampleRate = 48000)
    ∧ isValidBitrate bitrate

/-- LyraCodec::initialize (LyraCodec.cpp lines 37-67): fails if already
initialized or on invalid parameters; otherwise records the configuration
and derives the frame size `(sampleRate * 20) / 1000`. -/
def LyraCodec.init (s : LyraCodec) (sampleRate channels bitrate : Nat) :
    Bool × LyraCodec :=
  if s.initialized then (false, s)
  else if ¬ validateParameters sampleRate channels bitrate then (false, s)
  else (true, { s with initialized := true, sampleRate := sampleRate,
                       channels := channels, currentBitrate := bitrate,
                       frameSize := sampleRate * 20 / 1000 })

/-- The two memory bytes of an `int16_t` sample (value in [-32768, 32767]),
least-significant byte first. Both `encodeRaw` and `decodeRaw` view sample
memory through the same host order, so modelling it as little-endian does
not affect any round-trip result. -/
def int16ToBytes (x : Int) : List Nat :=
  [(x % 65536).toNat % 256, (x % 65536).toNat / 256]

/-- The `int16_t` read back from two memory bytes (inverse of `int16ToBytes`). -/
def int16OfBytes (b0 b1 : Nat) : Int :=
  let m := b0 + 256 * b1
  if m < 32768 then (m : Int) else (m : Int) - 65536

/-- The `int16_t` samples whose memory is the given byte list, two bytes per
sample (trailing odd byte ignored; callers check evenness first). -/
def int16sOfBytes : List Nat → List Int
  | b0 :: b1 :: rest => int16OfBytes b0 b1 :: int16sOfBytes rest
  | _ => []

/-- LyraCodec::encodeRaw (LyraCodec.cpp lines 282-291): the byte view of the
sample buffer, `2 * sampleCount` bytes. -/
def encodeRaw (audioData : List Int) : List Nat :=
  audioData.flatMap int16ToBytes

/-- LyraCodec::decodeRaw (LyraCodec.cpp lines 293-306): an odd byte count is
rejected (empty result); otherwise the bytes are reinterpreted as
`int16_t` samples. -/
def decodeRaw (encodedData : List Nat) : List Int :=
  if encodedData.length % 2 ≠ 0 then []
  else int16sOfBytes encodedData

/-- LyraCodec::validateInputSize (lines 358-361) via getExpectedInputSize
(lines 210-212): the sample count must equal `frameSize_ * channels_`. -/
def LyraCodec.validateInputSize (s : LyraCodec) (sampleCount : Nat) : Bool :=
  sampleCount = s.frameSize * s.channels

/-- LyraCodec::encode (LyraCodec.cpp lines 77-133). Failure paths (not
initialized, empty input, wrong frame length, empty encoder output) count an
encoding error and produce nothing; on success the packet carries the
current value of the `uint32_t` sequence counter, which is then
post-incremented, and the encoded-frames counter grows. -/
def LyraCodec.encode (s : LyraCodec) (audioData : List Int) :
    Option EncodedPacket × LyraCodec :=
  if ¬ s.initialized then
    (none, { s with encodingErrors := s.encodingErrors + 1 })
  else if audioData = [] then
    (none, { s with encodingErrors := s.encodingErrors + 1 })
  else if ¬ s.validateInputSize audioData.length then
    (none, { s with encodingErrors := s.encodingErrors + 1 })
  else
    let encodedData := encodeRaw audioData
    if encodedData = [] then
      (none, { s with encodingErrors := s.encodingErrors + 1 })
    else
      (some ⟨encodedData, s.nextSequenceNumber, s.currentBitrate⟩,
       { s with nextSequenceNumber := (s.nextSequenceNumber + 1) % 2^32,
                encodedFrames := s.encodedFrames + 1 })

/-- LyraCodec::decode (LyraCodec.cpp lines 143-189): failure paths (not
initialized, empty input, empty decoder output — in particular an odd byte
count, rejected by `decodeRaw`) count a decoding error and produce nothing;
on success the decoded-frames counter grows. -/
def LyraCodec.decode (s : LyraCodec) (encodedData : List Nat) :
    Option (List Int) × LyraCodec :=
  if ¬ s.initialized then
    (none, { s with decodingErrors := s.decodingErrors + 1 })
  else if encodedData = [] then
    (none, { s with decodingErrors := s.decodingErrors + 1 })
  else
    let decodedAudio := decodeRaw encodedData
    if decodedAudio = [] then
      (none, { s with decodingErrors := s.decodingErrors + 1 })
    else
      (some decodedAudio, { s with decodedFrames := s.decodedFrames + 1 })

/-- LyraCodec::setBitrate (LyraCodec.cpp lines 191-208): rejected outside
[3200, 9200], otherwise stored for the next encode call. -/
def LyraCodec.setBitrate (s : LyraCodec) (bitrate : Nat) : Bool × LyraCodec :=
  if ¬ isValidBitrate bitrate then (false, s)
  else (true, { s with currentBitrate := bitrate })

/-- An encoder session: the packets emitted by a sequence of `encode` calls
on one codec object, in call order, with the final codec state. -/
def encodeAll (s : LyraCodec) : List (List Int) → List EncodedPacket × LyraCodec
  | [] => ([], s)
  | f :: fs =>
    let r := s.encode f
    let rest := encodeAll r.2 fs
    (match r.1 with
     | some p => p :: rest.1
     | none => rest.1, rest.2)

/-- Truncation toward zero, the behaviour of C++ `static_cast` from a
floating-point value to an integer type (when the value is representable). -/
def ratTruncToInt (q : ℚ) : Int :=
  if 0 ≤ q then ⌊q⌋ else -⌊-q⌋

/-- Truncation toward zero into a `uint32_t`-sized Nat. A negative source
value would be undefined behaviour in C++; the code only casts values that
are nonnegative on every reachable state, so the choice `toNat` here is
never exercised with a negative argument by the theorems below. -/
def ratTruncToNat (q : ℚ) : Nat :=
  (ratTruncToInt q).toNat

/-- PreprocessingConfig (part_004 lines 104-118). -/
structure PreprocessingConfig where
  enableNoiseSupression : Bool
  enableCodec : Bool
  enableBitrateAdaptation : Bool
  enableVAD : Bool
  enableAGC : Bool
  enableEcho : Bool
  noiseSuppressionLevel : ℚ
  vadThreshold : ℚ
  agcTargetLevel : ℚ
  targetBitrate : Nat
deriving DecidableEq, Repr

/-- Default-constructed PreprocessingConfig (part_004 lines 105-115). -/
def PreprocessingConfig.default : PreprocessingConfig :=
  { enableNoiseSupression := true, enableCodec := true,
    enableBitrateAdaptation := true, enableVAD := true, enableAGC := true,
    enableEcho := false, noiseSuppressionLevel := 8/10, vadThreshold := 1/2,
    agcTargetLevel := 7/10, targetBitrate := 6000 }

/-- AudioPreprocessor state (part_004 lines 205-245), restricted to the
fields the encode/decode contracts below read: the flag set, the owned codec
(`codec_` is created only when `enableCodec` is set at initialization,
part_004 lines 1005-1012) and the AGC gain pair. The noise suppressor and
the bitrate calculator components, the statistics, callbacks and scratch
buffers are not modelled. -/
structure AudioPreprocessor where
  initialized : Bool
  config : PreprocessingConfig
  codec : Option LyraCodec
  currentGain : ℚ
  targetGain : ℚ
deriving DecidableEq, Repr

/-- AudioPreprocessor::validateConfig (part_004 lines 964-983). -/
def validateConfig (c : PreprocessingConfig) : Bool :=
  0 ≤ c.noiseSuppressionLevel ∧ c.noiseSuppressionLevel ≤ 1
    ∧ 0 ≤ c.vadThreshold ∧ c.vadThreshold ≤ 1
    ∧ 1/10 ≤ c.agcTargetLevel ∧ c.agcTargetLevel ≤ 2
    ∧ 3200 ≤ c.targetBitrate ∧ c.targetBitrate ≤ 9200

/-- AudioPreprocessor::initialize (part_004 lines 333-363) together with
initializeComponents (lines 990-1029): an invalid config fails; otherwise
`currentGain_ = 1.0`, `targetGain_ = agcTargetLevel`, and a LyraCodec is
created and initialized (at 16 kHz, mono, the target bitrate — which
succeeds, since `validateConfig` already bounds the bitrate) exactly when
`enableCodec` is set. Initialization of the noise suppressor and of the
bitrate calculator is not tracked (those components are not modelled). -/
def AudioPreprocessor.init (c : PreprocessingConfig) :
    Option AudioPreprocessor :=
  if ¬ validateConfig c then none
  else some
    { initialized := true, config := c,
      codec := if c.enableCodec
               then some (LyraCodec.new.init 16000 1 c.targetBitrate).2
               else none,
      currentGain := 1, targetGain := c.agcTargetLevel }

/-- AudioPreprocessor::updateConfig (part_004 lines 616-639): an invalid
config is ignored; otherwise the config is replaced, the codec bitrate is
forwarded (when a codec exists) and the AGC target is refreshed. The flag
set may change, but components are neither created nor destroyed. -/
def AudioPreprocessor.updateConfig (s : AudioPreprocessor)
    (c : PreprocessingConfig) : AudioPreprocessor :=
  if ¬ validateConfig c then s
  else { s with config := c,
                codec := s.codec.map (fun cd => (cd.setBitrate c.targetBitrate).2),
                targetGain := c.agcTargetLevel }

/-- AudioPreprocessor::int16ToFloat (part_004 lines 950-955): sample-wise
scaling by `1/32768`. -/
def int16ToFloat (x : Int) : ℚ :=
  (x : ℚ) * (1/32768)

/-- AudioPreprocessor::floatToInt16 (part_004 lines 957-962): clamp to
[-1, 1], scale by 32767, and `static_cast<int16_t>` (truncation toward
zero). -/
def floatToInt16 (q : ℚ) : Int :=
  ratTruncToInt (max (-1) (min 1 q) * 32767)

/-- AudioPreprocessor::validateSampleCount (part_004 lines 985-988):
`0 < n <= FRAMES_PER_BUFFER * 4 = 4096`. -/
def validateSampleCount (sampleCount : Nat) : Bool :=
  0 < sampleCount ∧ sampleCount ≤ 1024 * 4

/-- AudioPreprocessor::processOutput on `int16_t` data (part_004 lines
461-488), with the output branch of processAudioChain (lines 836-845):
convert to float, multiply by the current AGC gain when `enableAGC` is set
(nothing else runs on the output path), convert back. Returns `none` when
the guards fail (the C++ function returns false and leaves the caller's
buffer unusable). -/
def AudioPreprocessor.processOutput (s : AudioPreprocessor)
    (audioData : List Int) : Option (List Int) :=
  if ¬ s.initialized then none
  else if ¬ validateSampleCount audioData.length then none
  else
    let fl := audioData.map int16ToFloat
    let fl2 := if s.config.enableAGC then fl.map (· * s.currentGain) else fl
    some (fl2.map floatToInt16)

/-- AudioPreprocessor::encode (part_004 lines 518-550). Modelled paths: the
guard (line 519: no packet when uninitialized or when `codec_` is null,
which is the state produced by initializing with `enableCodec = false`) and
the codec-disabled raw branch (lines 523-528: the byte view of the samples
wrapped in a packet with sequence number 0 and bitrate 0, no state change).
The codec-enabled branch (lines 530-549, input chain + resample + delegate
to LyraCodec.encode) is outside this model and is mapped to `none`; every
theorem below about this definition has `enableCodec = false`, so that
branch is never relied on. -/
def AudioPreprocessor.encode (s : AudioPreprocessor) (audioData : List Int) :
    Option EncodedPacket :=
  if ¬ s.initialized then none
  else if s.codec = none then none
  else if ¬ s.config.enableCodec then
    some ⟨audioData.flatMap int16ToBytes, 0, 0⟩
  else none

/-- AudioPreprocessor::decode (part_004 lines 552-602). Modelled paths: the
guard (line 553, as in `encode`) and the codec-disabled raw branch (lines
557-573: an odd payload size is rejected, otherwise the bytes are
reinterpreted as samples and run through `processOutput`). The codec-enabled
branch (lines 575-601) is outside this model and is mapped to `none`; every
theorem below about this definition has `enableCodec = false`. -/
def AudioPreprocessor.decode (s : AudioPreprocessor) (packet : EncodedPacket) :
    Option (List Int) :=
  if ¬ s.initialized then none
  else if s.codec = none then none
  else if ¬ s.config.enableCodec then
    if packet.data.length % 2 ≠ 0 then none
    else s.processOutput (int16sOfBytes packet.data)
  else none

/-- NetworkMetrics (BitrateCalculator.h lines 158-165), default-constructed
values zero. -/
structure NetworkMetrics where
  packetLossRate : ℚ
  averageLatency : Nat
  jitter : Nat
  bandwidth : ℚ
deriving DecidableEq, Repr

/-- NetworkMetrics::NetworkMetrics (BitrateCalculator.h line 164). -/
def NetworkMetrics.default : NetworkMetrics :=
  { packetLossRate := 0, averageLatency := 0, jitter := 0, bandwidth := 0 }

/-- AudioMetrics (BitrateCalculator.h lines 168-175). -/
structure AudioMetrics where
  signalToNoiseRatio : ℚ
  averageVolume : ℚ
  speechDetected : Bool
  compressionRatio : ℚ
deriving DecidableEq, Repr

/-- AudioMetrics::AudioMetrics (BitrateCalculator.h line 174). -/
def AudioMetrics.default : AudioMetrics :=
  { signalToNoiseRatio := 0, averageVolume := 0, speechDetected := false,
    compressionRatio := 1 }

/-- BitrateCalculator::QualityMode (BitrateCalculator.h lines 224-229). -/
inductive QualityMode where
  | powerSave
  | balanced
  | highQuality
  | adaptive
deriving DecidableEq, Repr

/-- BitrateCalculator state (BitrateCalculator.h lines 234-262). The
history timestamps (real clock reads, used only by the ten-minute cleanup)
and the start/last-update times are omitted. -/
structure BitrateCalculator where
  initialized : Bool
  currentBitrate : Nat
  recommendedBitrate : Nat
  targetQuality : ℚ
  adaptationSpeed : ℚ
  stabilityThreshold : ℚ
  qualityMode : QualityMode
  autoAdaptationEnabled : Bool
  networkMetrics : NetworkMetrics
  audioMetrics : AudioMetrics
  bitrateHistory : List Nat
  bitrateChanges : Nat
deriving DecidableEq, Repr

/-- BitrateCalculator::BitrateCalculator (main.cpp lines 635-649). -/
def BitrateCalculator.new : BitrateCalculator :=
  { initialized := false, currentBitrate := 6000, recommendedBitrate := 6000,
    targetQuality := 1/2, adaptationSpeed := 3/10, stabilityThreshold := 1/10,
    qualityMode := .adaptive, autoAdaptationEnabled := true,
    networkMetrics := .default, audioMetrics := .default,
    bitrateHistory := [], bitrateChanges := 0 }

/-- BitrateCalculator::clampBitrate (main.cpp lines 944-947):
`max(3200, min(9200, bitrate))`. -/
def clampBitrate (bitrate : Nat) : Nat :=
  max 3200 (min 9200 bitrate)

/-- BitrateCalculator::addToHistory (main.cpp lines 958-971): append, then
drop the oldest entry when the history exceeds 100 entries. -/
def BitrateCalculator.addToHistory (s : BitrateCalculator) (bitrate : Nat) :
    BitrateCalculator :=
  let h := s.bitrateHistory ++ [bitrate]
  { s with bitrateHistory := if h.length > 100 then h.tail else h }

/-- BitrateCalculator::initialize (main.cpp lines 655-675): a second call is
a no-op; otherwise the clamped initial bitrate is committed and recorded. -/
def BitrateCalculator.init (s : BitrateCalculator) (initialBitrate : Nat) :
    BitrateCalculator :=
  if s.initialized then s
  else
    BitrateCalculator.addToHistory
      { s with currentBitrate := clampBitrate initialBitrate,
               recommendedBitrate := clampBitrate initialBitrate,
               initialized := true }
      (clampBitrate initialBitrate)

/-- BitrateCalculator::calculateNetworkBasedBitrate (main.cpp lines
853-877). `(LYRA_MIN_BITRATE + LYRA_DEFAULT_BITRATE) / 2 = 4600`. The
bandwidth cap is `static_cast<uint32_t>(bandwidth * 1000 * 0.8f)`. -/
def calculateNetworkBasedBitrate (m : NetworkMetrics) : Nat :=
  let b1 : Nat :=
    if m.packetLossRate > 5/100 then 3200
    else if m.packetLossRate > 2/100 then (3200 + 6000) / 2
    else 6000
  let b2 : Nat :=
    if m.averageLatency > 500 then min b1 3200
    else if m.averageLatency > 200 then min b1 ((3200 + 6000) / 2)
    else b1
  if m.bandwidth > 0 then min b2 (ratTruncToNat (m.bandwidth * 1000 * (8/10)))
  else b2

/-- BitrateCalculator::calculateAudioBasedBitrate (main.cpp lines 879-907). -/
def calculateAudioBasedBitrate (m : AudioMetrics) : Nat :=
  if ¬ m.speechDetected then 3200
  else
    let b1 : Nat :=
      if m.averageVolume > 7/10 then 9200
      else if m.averageVolume < 1/10 then 3200
      else 6000
    if m.signalToNoiseRatio > 20 then max b1 6000
    else if m.signalToNoiseRatio < 10 then 3200
    else b1

/-- BitrateCalculator::applyQualityMode (main.cpp lines 909-930). -/
def BitrateCalculator.applyQualityMode (s : BitrateCalculator)
    (baseBitrate : Nat) : Nat :=
  match s.qualityMode with
  | .powerSave => 3200
  | .balanced => min baseBitrate 6000
  | .highQuality => max baseBitrate 9200
  | .adaptive =>
    min baseBitrate (ratTruncToNat (3200 + (9200 - 3200) * s.targetQuality))

/-- BitrateCalculator::smoothBitrateTransition (main.cpp lines 932-942):
move from the current bitrate toward the proposed one by the adaptation
speed, then `static_cast<uint32_t>`. -/
def BitrateCalculator.smoothBitrateTransition (s : BitrateCalculator)
    (newBitrate : Nat) : Nat :=
  ratTruncToNat ((s.currentBitrate : ℚ)
    + ((newBitrate : ℚ) - (s.currentBitrate : ℚ)) * s.adaptationSpeed)

/-- BitrateCalculator::calculateOptimalBitrate on explicit metrics
(main.cpp lines 698-723): 0.6/0.4-weighted combination of the network- and
audio-based targets (`static_cast<uint32_t>`), quality-mode adjustment,
smoothing, and the final clamp to [3200, 9200]. -/
def BitrateCalculator.calculateOptimalBitrateWith (s : BitrateCalculator)
    (network : NetworkMetrics) (audio : AudioMetrics) : Nat :=
  let networkBitrate := calculateNetworkBasedBitrate network
  let audioBitrate := calculateAudioBasedBitrate audio
  let combinedBitrate := ratTruncToNat
    ((networkBitrate : ℚ) * (6/10) + (audioBitrate : ℚ) * (4/10))
  clampBitrate (s.smoothBitrateTransition (s.applyQualityMode combinedBitrate))

/-- BitrateCalculator::calculateOptimalBitrate, no-argument overload
(main.cpp lines 689-696): the default bitrate when not initialized,
otherwise the computation on the stored metrics. -/
def BitrateCalculator.calculateOptimalBitrate (s : BitrateCalculator) : Nat :=
  if ¬ s.initialized then 6000
  else s.calculateOptimalBitrateWith s.networkMetrics s.audioMetrics

/-- BitrateCalculator::shouldUpdateBitrate (main.cpp lines 949-956): commit
when the relative change reaches the stability threshold. Every reachable
state has `currentBitrate >= 3200`, so the division is never by zero there
(in ℚ a division by zero would yield 0). -/
def BitrateCalculator.shouldUpdateBitrate (s : BitrateCalculator)
    (newBitrate : Nat) : Bool :=
  |(newBitrate : ℚ) - (s.currentBitrate : ℚ)| / (s.currentBitrate : ℚ)
    ≥ s.stabilityThreshold

/-- BitrateCalculator::updateNetworkMetrics (main.cpp lines 725-741): store
the metrics; under auto-adaptation, recompute and commit the new bitrate
when it passes the stability check. -/
def BitrateCalculator.updateNetworkMetrics (s : BitrateCalculator)
    (metrics : NetworkMetrics) : BitrateCalculator :=
  let s1 := { s with networkMetrics := metrics }
  if ¬ s1.autoAdaptationEnabled then s1
  else
    let newBitrate := s1.calculateOptimalBitrate
    if s1.shouldUpdateBitrate newBitrate then
      BitrateCalculator.addToHistory
        { s1 with currentBitrate := newBitrate,
                  recommendedBitrate := newBitrate,
                  bitrateChanges := s1.bitrateChanges + 1 }
        newBitrate
    else s1

/-- BitrateCalculator::updateAudioMetrics (main.cpp lines 743-759):
symmetric to `updateNetworkMetrics` for the audio metrics. -/
def BitrateCalculator.updateAudioMetrics (s : BitrateCalculator)
    (metrics : AudioMetrics) : BitrateCalculator :=
  let s1 := { s with audioMetrics := metrics }
  if ¬ s1.autoAdaptationEnabled then s1
  else
    let newBitrate := s1.calculateOptimalBitrate
    if s1.shouldUpdateBitrate newBitrate then
      BitrateCalculator.addToHistory
        { s1 with currentBitrate := newBitrate,
                  recommendedBitrate := newBitrate,
                  bitrateChanges := s1.bitrateChanges + 1 }
        newBitrate
    else s1

/-- BitrateCalculator::reportPacketLoss (main.cpp lines 761-768): an empty
sample (`totalPackets == 0`) returns before touching anything; otherwise the
loss rate is stored. -/
def BitrateCalculator.reportPacketLoss (s : BitrateCalculator)
    (totalPackets lostPackets : Nat) : BitrateCalculator :=
  if totalPackets = 0 then s
  else { s with networkMetrics :=
    { s.networkMetrics with
      packetLossRate := (lostPackets : ℚ) / (totalPackets : ℚ) } }

/-- BitrateCalculator::reportLatency (main.cpp lines 770-778): exponential
moving average with `alpha = 0.3f`, `static_cast<uint32_t>`. -/
def BitrateCalculator.reportLatency (s : BitrateCalculator) (latencyMs : Nat) :
    BitrateCalculator :=
  let ema : ℚ := (3/10) * (latencyMs : ℚ)
    + (1 - 3/10) * (s.networkMetrics.averageLatency : ℚ)
  { s with networkMetrics :=
    { s.networkMetrics with averageLatency := ratTruncToNat ema } }

/-- BitrateCalculator::reportBandwidth (main.cpp lines 780-783). -/
def BitrateCalculator.reportBandwidth (s : BitrateCalculator)
    (bandwidthKbps : ℚ) : BitrateCalculator :=
  { s with networkMetrics :=
    { s.networkMetrics with bandwidth := bandwidthKbps } }

/-- A network or audio metric input fed to the bitrate controller. -/
inductive BCEvent where
  | updNetwork (m : NetworkMetrics)
  | updAudio (m : AudioMetrics)
  | repLoss (totalPackets lostPackets : Nat)
  | repLatency (latencyMs : Nat)
  | repBandwidth (bandwidthKbps : ℚ)
deriving DecidableEq, Repr

/-- Effect of one metric input on the BitrateCalculator state. -/
def bcStep (s : BitrateCalculator) : BCEvent → BitrateCalculator
  | .updNetwork m => s.updateNetworkMetrics m
  | .updAudio m => s.updateAudioMetrics m
  | .repLoss t l => s.reportPacketLoss t l
  | .repLatency l => s.reportLatency l
  | .repBandwidth b => s.reportBandwidth b

/-- The sequence numbers of the packets emitted by a codec session that
starts right after `initialize` on a fresh LyraCodec, in emission order. -/
def sessionSeqs (sampleRate channels bitrate : Nat) (fs : List (List Int)) :
    List Nat :=
  ((encodeAll (LyraCodec.new.init sampleRate channels bitrate).2 fs).1.map
    EncodedPacket.sequenceNumber)

/-- The per-sample effect of the codec-disabled round trip through
`AudioPreprocessor.decode` after `AudioPreprocessor.encode` with unit gain:
division by 32768 followed by multiplication by 32767 and truncation toward
zero moves every nonzero `int16_t` sample one step toward zero. -/
def shrinkTowardZero (x : Int) : Int :=
  if 0 < x then x - 1 else if x < 0 then x + 1 else 0

/-- The default preprocessing configuration with the codec disabled
(`enableCodec = false`). -/
def cfgNoCodec : PreprocessingConfig :=
  { PreprocessingConfig.default with enableCodec := false }

/-- The state `AudioPreprocessor.init PreprocessingConfig.default`
produces (proved below): codec created and initialized, unit gain. -/
def preprocCodecOn : AudioPreprocessor :=
  { initialized := true, config := PreprocessingConfig.default,
    codec := some { LyraCodec.new with initialized := true },
    currentGain := 1, targetGain := 7/10 }

/-- The state `AudioPreprocessor.init cfgNoCodec` produces (proved
below): no codec is created, so `codec_` stays null. -/
def freshNoCodec : AudioPreprocessor :=
  { initialized := true, config := cfgNoCodec, codec := none,
    currentGain := 1, targetGain := 7/10 }

/-- The preprocessor state in which the codec-disabled raw branch of
encode/decode is reachable: initialized with the codec enabled (so `codec_`
exists), then reconfigured with `enableCodec = false` via `updateConfig`
(proved below to equal `preprocCodecOn.updateConfig cfgNoCodec`). -/
def rawMode : AudioPreprocessor :=
  { preprocCodecOn with config := cfgNoCodec }

/-- A 20 ms S16LE frame at 48 kHz (960 samples): one sample of value 1
followed by silence. -/
def frame20ms : List Int :=
  1 :: List.replicate 959 0

/-- The sequence numbers of the packets emitted by two successive
`AudioPreprocessor.encode` calls in the codec-disabled raw mode. The raw
branch (part_004 lines 523-527) performs no state writes, so the second
call observes the same state as the first. -/
def rawSessionSeqs : List Nat :=
  ([frame20ms, frame20ms].filterMap rawMode.encode).map
    EncodedPacket.sequenceNumber

/-- Metrics of a badly degraded network: 10% packet loss, 600 ms latency,
no bandwidth estimate. -/
def badNet : NetworkMetrics :=
  { packetLossRate := 1/10, averageLatency := 600, jitter := 0, bandwidth := 0 }

/-- A bitrate controller initialized at the maximum bitrate 9200 bps. -/
def bc0 : BitrateCalculator :=
  BitrateCalculator.new.init 9200

/-- A running UDP listener with a fresh playback buffer attached and all
counters at zero (the state after startServer plus setBufferManager). -/
def udpListener : UDPManager :=
  { isRunning := true, isServer := true, sentPackets := 0,
    receivedPackets := 0, failedSends := 0,
    bufferManager := some BufferManager.new }

/-- Spec scenario E2: a BufferManager whose capacity was set to 4 through
`setMaxBufferSize` (main.cpp-style configuration of `maxBufferSize_`). -/
def e2Start : BufferManager :=
  { BufferManager.new with maxBufferSize := 4 }

/-- Spec scenario E2: ten captured frames pushed through `pushInputBuffer`,
which stamps them with sequence numbers 0..9. -/
def e2Ops : List BufOp :=
  (List.range 10).map (fun i => BufOp.pushIn [i])

/-- Spec scenario E2: the buffer state after the ten pushes and no pop. -/
def e2Final : BufferManager :=
  e2Ops.foldl bufStep e2Start

/-- Projection of `bufStep`: no operation changes the configured capacity. -/
theorem bufStep_maxBufferSize (s : BufferManager) (op : BufOp) :
    (bufStep s op).maxBufferSize = s.maxBufferSize := by
  cases op with
  | push p =>
    cases p with
    | none => rfl
    | some q =>
      simp only [bufStep, BufferManager.pushAudioPacket]
      split <;> rfl
  | pushIn d =>
    simp only [bufStep, BufferManager.pushInputBuffer]
    split
    · rfl
    · simp only [BufferManager.pushAudioPacket]
      split <;> rfl
  | pop =>
    simp only [bufStep, BufferManager.popAudioPacket]
    split <;> rfl

/-- One step of the bounded-FIFO invariant: if the capacity is at least one
and the input queue is within capacity, it stays within capacity. -/
theorem bufStep_length_le (s : BufferManager) (op : BufOp)
    (hK : 1 ≤ s.maxBufferSize) (h : s.inputBuffer.length ≤ s.maxBufferSize) :
    (bufStep s op).inputBuffer.length ≤ s.maxBufferSize := by
  have push_case : ∀ (t : BufferManager) (q : AudioPacket),
      1 ≤ t.maxBufferSize → t.inputBuffer.length ≤ t.maxBufferSize →
      ((t.pushAudioPacket (some q)).2).inputBuffer.length ≤ t.maxBufferSize := by
    intro t q htK ht
    simp only [BufferManager.pushAudioPacket, BufferManager.isBufferFull,
      removeOldPackets]
    split
    · rename_i hfull
      simp only [decide_eq_true_eq] at hfull
      simp only [List.length_append, List.length_tail, List.length_cons,
        List.length_nil]
      omega
    · rename_i hnotfull
      simp only [decide_eq_true_eq] at hnotfull
      simp only [List.length_append, List.length_cons, List.length_nil]
      omega
  cases op with
  | push p =>
    cases p with
    | none => simpa [bufStep, BufferManager.pushAudioPacket] using h
    | some q => exact push_case s q hK h
  | pushIn d =>
    simp only [bufStep, BufferManager.pushInputBuffer]
    split
    · simpa using h
    · exact push_case _ _ hK h
  | pop =>
    simp only [bufStep, BufferManager.popAudioPacket]
    split
    · simpa using h
    · rename_i p rest heq
      simp only [heq] at h ⊢
      simp at h ⊢
      omega

/-- The bounded-FIFO invariant over any operation sequence. -/
theorem bufFold_inv (ops : List BufOp) :
    ∀ s : BufferManager, 1 ≤ s.maxBufferSize →
      s.inputBuffer.length ≤ s.maxBufferSize →
      (ops.foldl bufStep s).maxBufferSize = s.maxBufferSize ∧
        (ops.foldl bufStep s).inputBuffer.length ≤ s.maxBufferSize := by
  induction ops with
  | nil => exact fun s _ h => ⟨rfl, h⟩
  | cons op ops ih =>
    intro s hK h
    have hmax := bufStep_maxBufferSize s op
    have hlen := bufStep_length_le s op hK h
    have := ih (bufStep s op) (hmax ▸ hK) (hmax ▸ hlen)
    simp only [List.foldl_cons]
    exact ⟨this.1.trans hmax, by rw [hmax] at this; exact this.2⟩

/-- C1: a push onto a full FrameBuffer evicts exactly the oldest queued
frame, increments the dropped counter by one, enqueues the new frame and
returns true; after any sequence of push/pop operations the buffer size
never exceeds the capacity K (provided K >= 1); and in scenario E2 (K = 4,
frames with sequence numbers 0..9 pushed, no pops) the final size is 4, the
dropped count is 6 and successive pops return the frames with sequence
numbers 6, 7, 8, 9 in that order. -/
theorem C1_dropOldest_bounded_fifo :
    (∀ (s : BufferManager) (p : AudioPacket),
      s.inputBuffer.length ≥ s.maxBufferSize →
      s.pushAudioPacket (some p) =
        (true, { s with inputBuffer := s.inputBuffer.tail ++ [p],
                        droppedPackets := s.droppedPackets + 1,
                        totalPackets := s.totalPackets + 1 })) ∧
    (∀ (s0 : BufferManager) (ops : List BufOp),
      1 ≤ s0.maxBufferSize → s0.inputBuffer.length ≤ s0.maxBufferSize →
      (ops.foldl bufStep s0).inputBuffer.length ≤ s0.maxBufferSize) ∧
    e2Final.inputBuffer.length = 4 ∧
    e2Final.droppedPackets = 6 ∧
    e2Final.popAudioPacket.1.map AudioPacket.sequenceNumber = some 6 ∧
    e2Final.popAudioPacket.2.popAudioPacket.1.map AudioPacket.sequenceNumber
      = some 7 ∧
    e2Final.popAudioPacket.2.popAudioPacket.2.popAudioPacket.1.map
      AudioPacket.sequenceNumber = some 8 ∧
    e2Final.popAudioPacket.2.popAudioPacket.2.popAudioPacket.2.popAudioPacket.1.map
      AudioPacket.sequenceNumber = some 9 := by
  refine ⟨?_, ?_, ?_, ?_, ?_, ?_, ?_, ?_⟩
  · intro s p hfull
    simp only [BufferManager.pushAudioPacket, BufferManager.isBufferFull,
      removeOldPackets]
    rw [if_pos (by simpa using hfull)]
  · intro s0 ops hK h
    exact (bufFold_inv ops s0 hK h).2
  all_goals decide

/-- C1 witness: the drop-oldest step at the concrete full E2 buffer, the
bound for a concrete operation sequence, and the E2 scenario itself. -/
theorem C1_witness :
    (e2Final.pushAudioPacket (some ⟨[42], 99⟩) =
      (true, { e2Final with inputBuffer := e2Final.inputBuffer.tail ++ [⟨[42], 99⟩],
                            droppedPackets := e2Final.droppedPackets + 1,
                            totalPackets := e2Final.totalPackets + 1 })) ∧
    (([BufOp.pushIn [1], BufOp.pop, BufOp.push (some ⟨[2], 5⟩)].foldl bufStep
        BufferManager.new).inputBuffer.length ≤ BufferManager.new.maxBufferSize) ∧
    e2Final.inputBuffer.length = 4 := by
  refine ⟨C1_dropOldest_bounded_fifo.1 e2Final ⟨[42], 99⟩ (by decide),
    C1_dropOldest_bounded_fifo.2.1 BufferManager.new _ (by decide) (by decide),
    C1_dropOldest_bounded_fifo.2.2.1⟩

/-- C9: reportPacketLoss with totalPackets = 0 returns without modifying any
state — the stored metrics (in particular the packet-loss rate) are exactly
what they were before the call, and no division by zero occurs. -/
theorem C9_reportPacketLoss_zero_total (s : BitrateCalculator) (lost : Nat) :
    s.reportPacketLoss 0 lost = s := by
  simp [BitrateCalculator.reportPacketLoss]

/-- C3: for any (seq, payload) with seq a uint32 value and payload at most
1020 bytes, serializing to the wire format and deserializing the resulting
datagram restores exactly the same sequence number and payload, on a host of
either byte order (both directions use the same `memcpy` layout). -/
theorem C3_wire_roundtrip (e : Endian) (seq : Nat) (payload : List Nat)
    (h1 : seq < 2^32) (_h2 : payload.length ≤ 1020) :
    deserializePacket e (serializePacket e ⟨payload, seq⟩) =
      some ⟨payload, seq⟩ := by
  cases e <;>
    simp only [serializePacket, u32ToBytes, deserializePacket, List.cons_append,
      List.nil_append, bytesToU32, Option.some.injEq, AudioPacket.mk.injEq,
      true_and] <;>
    omega

/-- C3 witness: the round-trip at a concrete sequence number and payload. -/
theorem C3_witness :
    (12345 < 2^32) ∧ (([7, 8] : List Nat).length ≤ 1020) ∧
    deserializePacket .little (serializePacket .little ⟨[7, 8], 12345⟩) =
      some ⟨[7, 8], 12345⟩ :=
  ⟨by decide, by decide,
    C3_wire_roundtrip .little 12345 [7, 8] (by decide) (by decide)⟩

/-- C8 (amended): deserialization reads the sequence number in host byte
order; on a little-endian host a datagram beginning 39 30 00 00 yields
sequence number 12345, whatever the remaining payload. -/
theorem C8_little_endian_host (rest : List Nat) :
    deserializePacket .little (0x39 :: 0x30 :: 0x00 :: 0x00 :: rest) =
      some ⟨rest, 12345⟩ := rfl

/-- C8 counterexample: on a big-endian host the same four leading bytes
39 30 00 00 deserialize to 959447040, not 12345 — the claim that every host
yields 12345 fails. -/
theorem C8_counterexample :
    deserializePacket .big [0x39, 0x30, 0x00, 0x00] = some ⟨[], 959447040⟩ ∧
      (959447040 : Nat) ≠ 12345 := by decide

/-- C10: on an initialized codec, decoding a payload of odd (hence nonzero)
byte length returns absent and increments the decoding-error counter by
exactly one, leaving every other field — in particular the decoded-frames
counter — unchanged. -/
theorem C10_odd_payload_decode_error (s : LyraCodec) (d : List Nat)
    (h1 : s.initialized = true) (h2 : d.length % 2 = 1) :
    s.decode d = (none, { s with decodingErrors := s.decodingErrors + 1 }) := by
  have hne : ¬ d = [] := by
    intro hd
    rw [hd] at h2
    simp at h2
  have hraw : decodeRaw d = [] := by
    simp [decodeRaw, h2]
  simp [LyraCodec.decode, h1, hne, hraw]

/-- C10 witness: a freshly initialized codec rejecting a 3-byte payload. -/
theorem C10_witness :
    ((LyraCodec.new.init 16000 1 6000).2.initialized = true) ∧
    (([1, 2, 3] : List Nat).length % 2 = 1) ∧
    (LyraCodec.new.init 16000 1 6000).2.decode [1, 2, 3] =
      (none, { (LyraCodec.new.init 16000 1 6000).2 with
               decodingErrors :=
                 (LyraCodec.new.init 16000 1 6000).2.decodingErrors + 1 }) :=
  ⟨by decide, by decide,
    C10_odd_payload_decode_error _ [1, 2, 3] (by decide) (by decide)⟩

/-- Case analysis of one LyraCodec.encode call: either it fails and leaves
the sequence counter alone, or it emits a packet carrying the current
counter value and advances the counter by one modulo 2^32. -/
theorem encode_seq_cases (s : LyraCodec) (f : List Int) :
    ((s.encode f).1 = none ∧
      (s.encode f).2.nextSequenceNumber = s.nextSequenceNumber) ∨
    (∃ p, (s.encode f).1 = some p ∧ p.sequenceNumber = s.nextSequenceNumber ∧
      (s.encode f).2.nextSequenceNumber = (s.nextSequenceNumber + 1) % 2^32) := by
  simp only [LyraCodec.encode]
  split
  · exact Or.inl ⟨rfl, rfl⟩
  · split
    · exact Or.inl ⟨rfl, rfl⟩
    · split
      · exact Or.inl ⟨rfl, rfl⟩
      · split
        · exact Or.inl ⟨rfl, rfl⟩
        · exact Or.inr ⟨_, rfl, rfl, rfl⟩

/-- The sequence numbers emitted by an encoder session are consecutive
counter values modulo 2^32, starting from the session's current counter. -/
theorem encodeAll_seq_formula (fs : List (List Int)) :
    ∀ s : LyraCodec, s.nextSequenceNumber < 2^32 →
      (encodeAll s fs).1.map EncodedPacket.sequenceNumber =
        (List.range (encodeAll s fs).1.length).map
          (fun i => (s.nextSequenceNumber + i) % 2^32) := by
  induction fs with
  | nil => intro s _; simp [encodeAll]
  | cons f fs ih =>
    intro s hs
    rcases encode_seq_cases s f with ⟨h1, h2⟩ | ⟨p, h1, hp, h2⟩
    · have hrw : encodeAll s (f :: fs) =
          ((encodeAll (s.encode f).2 fs).1, (encodeAll (s.encode f).2 fs).2) := by
        simp [encodeAll, h1]
      rw [hrw]
      have hlt : (s.encode f).2.nextSequenceNumber < 2^32 := by rw [h2]; exact hs
      have := ih (s.encode f).2 hlt
      rw [h2] at this
      simpa using this
    · have hrw : encodeAll s (f :: fs) =
          (p :: (encodeAll (s.encode f).2 fs).1, (encodeAll (s.encode f).2 fs).2) := by
        simp [encodeAll, h1]
      rw [hrw]
      have hlt : (s.encode f).2.nextSequenceNumber < 2^32 := by
        rw [h2]; exact Nat.mod_lt _ (by norm_num)
      have htail := ih (s.encode f).2 hlt
      rw [h2] at htail
      simp only [List.map_cons, List.length_cons, htail, hp,
        List.range_succ_eq_map, List.map_map, List.cons.injEq]
      constructor
      · omega
      · apply List.map_congr_left
        intro i _
        simp only [Function.comp_apply]
        omega

/-- Initialization never touches the sequence counter of a fresh codec. -/
theorem freshCodec_seq_zero (sampleRate channels bitrate : Nat) :
    (LyraCodec.new.init sampleRate channels bitrate).2.nextSequenceNumber
      = 0 := by
  simp only [LyraCodec.init]
  split_ifs <;> rfl

/-- C2 (amended): for every freshly constructed and initialized LyraCodec,
under every configuration, the i-th emitted packet carries sequence number
i mod 2^32; hence, while at most 2^32 packets have been emitted, the
sequence numbers are strictly increasing, and the first emitted packet
carries sequence number 0. (The preprocessor's codec-disabled raw path
instead stamps every packet with sequence number 0 — see the
counterexample.) -/
theorem C2_codec_sequence_monotone (sampleRate channels bitrate : Nat)
    (fs : List (List Int)) :
    sessionSeqs sampleRate channels bitrate fs =
      (List.range (sessionSeqs sampleRate channels bitrate fs).length).map
        (· % 2^32) ∧
    ((sessionSeqs sampleRate channels bitrate fs).length ≤ 2^32 →
      (sessionSeqs sampleRate channels bitrate fs).Pairwise (· < ·)) ∧
    (sessionSeqs sampleRate channels bitrate fs ≠ [] →
      (sessionSeqs sampleRate channels bitrate fs).head? = some 0) := by
  have h0 := freshCodec_seq_zero sampleRate channels bitrate
  have hf := encodeAll_seq_formula fs
    (LyraCodec.new.init sampleRate channels bitrate).2 (by rw [h0]; norm_num)
  rw [h0] at hf
  have hmain : sessionSeqs sampleRate channels bitrate fs =
      (List.range (sessionSeqs sampleRate channels bitrate fs).length).map
        (· % 2^32) := by
    unfold sessionSeqs
    rw [List.length_map]
    simpa using hf
  refine ⟨hmain, ?_, ?_⟩
  · intro hlen
    rw [hmain]
    have : ∀ i ∈ List.range (sessionSeqs sampleRate channels bitrate fs).length,
        i % 2^32 = i := by
      intro i hi
      rw [List.mem_range] at hi
      exact Nat.mod_eq_of_lt (lt_of_lt_of_le hi hlen)
    rw [List.map_congr_left this, List.map_id']
    exact List.pairwise_lt_range _
  · intro hne
    rw [hmain]
    obtain ⟨n, hn⟩ : ∃ n, (sessionSeqs sampleRate channels bitrate fs).length
        = n + 1 := by
      rcases Nat.exists_eq_succ_of_ne_zero
        (fun h => hne (List.length_eq_zero.mp h)) with ⟨n, hn⟩
      exact ⟨n, hn⟩
    rw [hn, List.range_succ_eq_map]
    simp

set_option maxRecDepth 8192 in
/-- C2 witness: a two-frame session on the default 16 kHz mono codec, whose
emitted sequence numbers are 0 then 1, strictly increasing and starting
at 0. -/
theorem C2_witness :
    sessionSeqs 16000 1 6000 [List.replicate 320 0, List.replicate 320 5]
      = [0, 1] ∧
    (sessionSeqs 16000 1 6000
      [List.replicate 320 0, List.replicate 320 5]).Pairwise (· < ·) ∧
    (sessionSeqs 16000 1 6000
      [List.replicate 320 0, List.replicate 320 5]).head? = some 0 :=
  ⟨by decide,
   (C2_codec_sequence_monotone 16000 1 6000
     [List.replicate 320 0, List.replicate 320 5]).2.1 (by decide),
   (C2_codec_sequence_monotone 16000 1 6000
     [List.replicate 320 0, List.replicate 320 5]).2.2 (by decide)⟩

/-- The default configuration passes validateConfig. -/
theorem validateConfig_default : validateConfig PreprocessingConfig.default = true := by
  simp only [validateConfig, PreprocessingConfig.default, decide_eq_true_eq]
  norm_num

/-- Disabling the codec keeps the configuration valid. -/
theorem validateConfig_cfgNoCodec : validateConfig cfgNoCodec = true := by
  simp only [validateConfig, cfgNoCodec, PreprocessingConfig.default,
    decide_eq_true_eq]
  norm_num

/-- Initializing with the default configuration yields `preprocCodecOn`. -/
theorem init_default_eq :
    AudioPreprocessor.init PreprocessingConfig.default =
      some preprocCodecOn := by
  simp only [AudioPreprocessor.init, validateConfig_default]
  norm_num [preprocCodecOn, PreprocessingConfig.default, LyraCodec.init,
    LyraCodec.new, validateParameters, isValidBitrate]

/-- Initializing with the codec disabled yields `freshNoCodec`: the codec
handle is never created. -/
theorem init_cfgNoCodec_eq :
    AudioPreprocessor.init cfgNoCodec = some freshNoCodec := by
  simp only [AudioPreprocessor.init, validateConfig_cfgNoCodec]
  norm_num [freshNoCodec, cfgNoCodec, PreprocessingConfig.default]

/-- `rawMode` is reachable: initialize with the codec enabled, then disable
it through updateConfig. -/
theorem rawMode_reachable :
    preprocCodecOn.updateConfig cfgNoCodec = rawMode := by
  simp only [AudioPreprocessor.updateConfig, validateConfig_cfgNoCodec]
  norm_num [rawMode, preprocCodecOn, cfgNoCodec, PreprocessingConfig.default,
    LyraCodec.setBitrate, isValidBitrate, LyraCodec.new]

/-- In `rawMode`, encode takes the raw branch and stamps sequence number 0. -/
theorem rawMode_encode_eq (F : List Int) :
    rawMode.encode F = some ⟨F.flatMap int16ToBytes, 0, 0⟩ := by
  simp [AudioPreprocessor.encode, rawMode, preprocCodecOn, cfgNoCodec,
    PreprocessingConfig.default]

/-- C2 counterexample: in the preprocessor's codec-disabled raw mode
(reached by initializing with the codec enabled and then disabling it), two
successively emitted packets both carry sequence number 0, so the emitted
sequence numbers are not strictly increasing. -/
theorem C2_counterexample :
    rawSessionSeqs = [0, 0] ∧ ¬ rawSessionSeqs.Pairwise (· < ·) := by
  have h : rawSessionSeqs = [0, 0] := by
    simp [rawSessionSeqs, rawMode_encode_eq]
  exact ⟨h, by rw [h]; decide⟩

/-- Reading back the two memory bytes of an in-range `int16_t` restores the
sample. -/
theorem int16OfBytes_int16ToBytes (x : Int) (h1 : -32768 ≤ x) (h2 : x ≤ 32767) :
    int16OfBytes ((x % 65536).toNat % 256) ((x % 65536).toNat / 256) = x := by
  simp only [int16OfBytes]
  split <;> rename_i h <;> omega

/-- The byte view of a sample buffer has two bytes per sample. -/
theorem length_encodeRaw (F : List Int) : (encodeRaw F).length = 2 * F.length := by
  induction F with
  | nil => simp [encodeRaw]
  | cons x F ih =>
    simp only [encodeRaw, List.flatMap_cons, List.length_append,
      List.length_cons] at *
    simp [int16ToBytes, ih]
    omega

/-- Reinterpreting the byte view of an in-range sample buffer as `int16_t`
samples restores the buffer. -/
theorem int16sOfBytes_encodeRaw (F : List Int)
    (h : ∀ x ∈ F, -32768 ≤ x ∧ x ≤ 32767) :
    int16sOfBytes (encodeRaw F) = F := by
  induction F with
  | nil => simp [encodeRaw, int16sOfBytes]
  | cons x F ih =>
    have hx := h x (List.mem_cons_self x F)
    have hF := ih (fun y hy => h y (List.mem_cons_of_mem x hy))
    simp only [encodeRaw, List.flatMap_cons] at *
    simp only [int16ToBytes, List.cons_append, List.nil_append, int16sOfBytes]
    rw [int16OfBytes_int16ToBytes x hx.1 hx.2]
    simpa using hF

/-- The float pass `floatToInt16 (int16ToFloat x)`, for an in-range sample:
dividing by 32768 and multiplying by 32767 leaves a value strictly between
`x - 1` and `x` (or between `x` and `x + 1` when `x` is negative), so the
truncation toward zero lands on `shrinkTowardZero x`. -/
theorem floatToInt16_int16ToFloat (x : Int) (h1 : -32768 ≤ x) (h2 : x ≤ 32767) :
    floatToInt16 (int16ToFloat x) = shrinkTowardZero x := by
  have hxq1 : (-32768 : ℚ) ≤ (x : ℚ) := by exact_mod_cast h1
  have hxq2 : (x : ℚ) ≤ 32767 := by exact_mod_cast h2
  have hle : (x : ℚ) * (1/32768) ≤ 1 := by linarith
  have hge : (-1 : ℚ) ≤ (x : ℚ) * (1/32768) := by linarith
  simp only [floatToInt16, int16ToFloat, ratTruncToInt, shrinkTowardZero,
    min_eq_right hle, max_eq_right hge]
  rcases lt_trichotomy x 0 with hneg | hzero | hpos
  · have hv : (x : ℚ) * (1/32768) * 32767 < 0 := by
      have hxq : (x : ℚ) < 0 := by exact_mod_cast hneg
      nlinarith
    rw [if_neg (by linarith), if_neg (by omega), if_pos hneg]
    have hfloor : ⌊-((x : ℚ) * (1/32768) * 32767)⌋ = -x - 1 := by
      rw [Int.floor_eq_iff]
      constructor
      · push_cast
        have : (x : ℚ) ≥ -32768 := by exact_mod_cast h1
        nlinarith
      · push_cast
        have hxle : x ≤ -1 := by omega
        have hxq : (x : ℚ) ≤ -1 := by exact_mod_cast hxle
        nlinarith
    rw [hfloor]
    omega
  · subst hzero
    norm_num
  · have hv : (0 : ℚ) ≤ (x : ℚ) * (1/32768) * 32767 := by
      have hxq : (0 : ℚ) ≤ (x : ℚ) := by exact_mod_cast le_of_lt hpos
      positivity
    rw [if_pos hv, if_pos hpos]
    rw [Int.floor_eq_iff]
    constructor
    · push_cast
      have : (x : ℚ) ≤ 32767 := by exact_mod_cast h2
      nlinarith
    · push_cast
      have hxge : 1 ≤ x := by omega
      have hxq : (1 : ℚ) ≤ (x : ℚ) := by exact_mod_cast hxge
      nlinarith

/-- The codec-disabled round trip on a preprocessor state with unit gain: it
produces a packet with sequence number 0 whose decode returns the frame with
every nonzero sample moved one step toward zero. -/
theorem rawPath_roundtrip (s : AudioPreprocessor) (F : List Int)
    (hi : s.initialized = true) (hc : s.codec ≠ none)
    (he : s.config.enableCodec = false) (hg : s.currentGain = 1)
    (hl1 : 0 < F.length) (hl2 : F.length ≤ 4096)
    (hr : ∀ x ∈ F, -32768 ≤ x ∧ x ≤ 32767) :
    s.encode F = some ⟨encodeRaw F, 0, 0⟩ ∧
    s.decode ⟨encodeRaw F, 0, 0⟩ = some (F.map shrinkTowardZero) := by
  have hvalid : validateSampleCount F.length = true := by
    simp only [validateSampleCount, decide_eq_true_eq]
    omega
  constructor
  · simp [AudioPreprocessor.encode, hi, hc, he, encodeRaw]
  · have heven : (encodeRaw F).length % 2 = 0 := by
      rw [length_encodeRaw]; omega
    have hout : s.processOutput F = some (F.map shrinkTowardZero) := by
      simp only [AudioPreprocessor.processOutput, hi, hvalid]
      norm_num
      have hmap : ∀ (G : List Int), (∀ x ∈ G, -32768 ≤ x ∧ x ≤ 32767) →
          (G.map int16ToFloat).map floatToInt16 = G.map shrinkTowardZero := by
        intro G hG
        rw [List.map_map]
        apply List.map_congr_left
        intro x hx
        exact floatToInt16_int16ToFloat x (hG x hx).1 (hG x hx).2
      cases hAGC : s.config.enableAGC with
      | false => simp [hAGC, hmap F hr]
      | true =>
        simp only [hAGC, if_true, hg, mul_one, List.map_id']
        exact hmap F hr
    simp [AudioPreprocessor.decode, hi, hc, he, heven, hout,
      int16sOfBytes_encodeRaw F hr]

set_option maxRecDepth 16384 in
/-- C4: the pass-through round trip fails on the code. Initializing with
`enableCodec = false` never creates the codec handle, so `encode` returns
absent for every frame (the raw branch is dead code there); and in the state
where the raw branch is reachable (codec created, then disabled through
updateConfig), the round trip returns the frame with every nonzero sample
moved one step toward zero — `decode (encode F)` is not `F` for the 20 ms
frame holding one sample of value 1 — because `int16ToFloat` divides by
32768 while `floatToInt16` multiplies by 32767 and truncates. -/
theorem C4_passthrough_failure :
    (AudioPreprocessor.init cfgNoCodec).map
      (fun s => s.encode frame20ms) = some none ∧
    rawMode.encode frame20ms = some ⟨encodeRaw frame20ms, 0, 0⟩ ∧
    rawMode.decode ⟨encodeRaw frame20ms, 0, 0⟩ =
      some (frame20ms.map shrinkTowardZero) ∧
    frame20ms.map shrinkTowardZero ≠ frame20ms := by
  have hfr : ∀ x ∈ frame20ms, -32768 ≤ x ∧ x ≤ 32767 := by
    intro x hx
    simp only [frame20ms, List.mem_cons, List.mem_replicate] at hx
    rcases hx with rfl | ⟨-, rfl⟩ <;> norm_num
  have hlen : frame20ms.length = 960 := by simp [frame20ms]
  have hrt := rawPath_roundtrip rawMode frame20ms rfl
    (by simp [rawMode, preprocCodecOn]) rfl rfl
    (by rw [hlen]; norm_num) (by rw [hlen]; norm_num) hfr
  refine ⟨?_, hrt.1, hrt.2, ?_⟩
  · rw [init_cfgNoCodec_eq]
    simp [AudioPreprocessor.encode, freshNoCodec]
  · have hmap : frame20ms.map shrinkTowardZero = 0 :: List.replicate 959 0 := by
      simp only [frame20ms, List.map_cons, List.map_replicate]
      norm_num [shrinkTowardZero]
    rw [hmap]
    simp [frame20ms]

/-- The final clamp confines any bitrate to [3200, 9200]. -/
theorem clampBitrate_range (x : Nat) :
    3200 ≤ clampBitrate x ∧ clampBitrate x ≤ 9200 := by
  unfold clampBitrate
  omega

/-- Every bitrate the controller computes is in [3200, 9200]: the default
when uninitialized, the clamped pipeline output otherwise. -/
theorem calcOptimal_range (s : BitrateCalculator) :
    3200 ≤ s.calculateOptimalBitrate ∧ s.calculateOptimalBitrate ≤ 9200 := by
  unfold BitrateCalculator.calculateOptimalBitrate
  split
  · norm_num
  · exact clampBitrate_range _

/-- One metric input keeps the committed bitrate inside [3200, 9200]. -/
theorem bcStep_range (s : BitrateCalculator) (e : BCEvent)
    (h : 3200 ≤ s.currentBitrate ∧ s.currentBitrate ≤ 9200) :
    3200 ≤ (bcStep s e).currentBitrate ∧ (bcStep s e).currentBitrate ≤ 9200 := by
  cases e with
  | updNetwork m =>
    simp only [bcStep, BitrateCalculator.updateNetworkMetrics]
    split
    · simpa using h
    · split
      · simpa [BitrateCalculator.addToHistory] using calcOptimal_range _
      · simpa using h
  | updAudio m =>
    simp only [bcStep, BitrateCalculator.updateAudioMetrics]
    split
    · simpa using h
    · split
      · simpa [BitrateCalculator.addToHistory] using calcOptimal_range _
      · simpa using h
  | repLoss t l =>
    simp only [bcStep, BitrateCalculator.reportPacketLoss]
    split <;> simpa using h
  | repLatency l =>
    simpa [bcStep, BitrateCalculator.reportLatency] using h
  | repBandwidth b =>
    simpa [bcStep, BitrateCalculator.reportBandwidth] using h

/-- The clamped-bitrate invariant survives any event sequence. -/
theorem bcFold_range (events : List BCEvent) :
    ∀ s : BitrateCalculator,
      3200 ≤ s.currentBitrate ∧ s.currentBitrate ≤ 9200 →
      3200 ≤ (events.foldl bcStep s).currentBitrate ∧
        (events.foldl bcStep s).currentBitrate ≤ 9200 := by
  induction events with
  | nil => exact fun s h => h
  | cons e events ih =>
    intro s h
    exact ih (bcStep s e) (bcStep_range s e h)

/-- C5: from initialization onward and after every sequence of network and
audio metric inputs, the committed (current) bitrate lies within
[3200, 9200] bits per second. -/
theorem C5_bitrate_always_clamped (b : Nat) (events : List BCEvent) :
    3200 ≤ (events.foldl bcStep (BitrateCalculator.new.init b)).currentBitrate ∧
    (events.foldl bcStep (BitrateCalculator.new.init b)).currentBitrate
      ≤ 9200 := by
  apply bcFold_range
  simp only [BitrateCalculator.init, BitrateCalculator.new]
  split
  · norm_num
  · simpa [BitrateCalculator.addToHistory] using clampBitrate_range b

/-- Fields of the controller that one updateNetworkMetrics call never
changes (plus the stored network metrics, which become the argument). -/
theorem updNet_fields (s : BitrateCalculator) (m : NetworkMetrics) :
    (s.updateNetworkMetrics m).initialized = s.initialized ∧
    (s.updateNetworkMetrics m).networkMetrics = m ∧
    (s.updateNetworkMetrics m).audioMetrics = s.audioMetrics ∧
    (s.updateNetworkMetrics m).qualityMode = s.qualityMode ∧
    (s.updateNetworkMetrics m).targetQuality = s.targetQuality ∧
    (s.updateNetworkMetrics m).adaptationSpeed = s.adaptationSpeed ∧
    (s.updateNetworkMetrics m).stabilityThreshold = s.stabilityThreshold ∧
    (s.updateNetworkMetrics m).autoAdaptationEnabled = s.autoAdaptationEnabled := by
  simp only [BitrateCalculator.updateNetworkMetrics, BitrateCalculator.addToHistory]
  split
  · simp
  · split <;> simp

/-- The computed bitrate depends only on the fields the computation reads. -/
theorem calcOptimal_congr (s t : BitrateCalculator)
    (h1 : t.initialized = s.initialized)
    (h2 : t.networkMetrics = s.networkMetrics)
    (h3 : t.audioMetrics = s.audioMetrics)
    (h4 : t.currentBitrate = s.currentBitrate)
    (h5 : t.qualityMode = s.qualityMode)
    (h6 : t.targetQuality = s.targetQuality)
    (h7 : t.adaptationSpeed = s.adaptationSpeed) :
    t.calculateOptimalBitrate = s.calculateOptimalBitrate := by
  unfold BitrateCalculator.calculateOptimalBitrate
    BitrateCalculator.calculateOptimalBitrateWith
    BitrateCalculator.applyQualityMode BitrateCalculator.smoothBitrateTransition
  rw [h1, h2, h3, h4, h5, h6, h7]

/-- The stability check depends only on the current bitrate and threshold. -/
theorem shouldUpdate_congr (s t : BitrateCalculator) (nb : Nat)
    (h4 : t.currentBitrate = s.currentBitrate)
    (h8 : t.stabilityThreshold = s.stabilityThreshold) :
    t.shouldUpdateBitrate nb = s.shouldUpdateBitrate nb := by
  unfold BitrateCalculator.shouldUpdateBitrate
  rw [h4, h8]

/-- Closed form of updateNetworkMetrics when auto-adaptation is off. -/
theorem updNet_eq_of_not_auto (s : BitrateCalculator) (m : NetworkMetrics)
    (hauto : ¬ s.autoAdaptationEnabled = true) :
    s.updateNetworkMetrics m = { s with networkMetrics := m } := by
  simp only [BitrateCalculator.updateNetworkMetrics]
  rw [if_pos hauto]

/-- Closed form of updateNetworkMetrics when the stability check rejects the
candidate bitrate: only the metrics are stored. -/
theorem updNet_eq_of_not_should (s : BitrateCalculator) (m : NetworkMetrics)
    (hauto : s.autoAdaptationEnabled = true)
    (hsh : ¬ ({ s with networkMetrics := m }
        : BitrateCalculator).shouldUpdateBitrate
        (({ s with networkMetrics := m }
          : BitrateCalculator).calculateOptimalBitrate) = true) :
    s.updateNetworkMetrics m = { s with networkMetrics := m } := by
  simp only [BitrateCalculator.updateNetworkMetrics]
  rw [if_neg (not_not_intro hauto), if_neg hsh]

/-- Closed form of updateNetworkMetrics when the candidate is committed
(addToHistory unfolded). -/
theorem updNet_eq_of_should (s : BitrateCalculator) (m : NetworkMetrics)
    (hauto : s.autoAdaptationEnabled = true)
    (hsh : ({ s with networkMetrics := m }
        : BitrateCalculator).shouldUpdateBitrate
        (({ s with networkMetrics := m }
          : BitrateCalculator).calculateOptimalBitrate) = true) :
    s.updateNetworkMetrics m =
      { s with networkMetrics := m,
               currentBitrate := ({ s with networkMetrics := m }
                 : BitrateCalculator).calculateOptimalBitrate,
               recommendedBitrate := ({ s with networkMetrics := m }
                 : BitrateCalculator).calculateOptimalBitrate,
               bitrateChanges := s.bitrateChanges + 1,
               bitrateHistory :=
                 if (s.bitrateHistory ++ [({ s with networkMetrics := m }
                     : BitrateCalculator).calculateOptimalBitrate]).length > 100
                 then (s.bitrateHistory ++ [({ s with networkMetrics := m }
                     : BitrateCalculator).calculateOptimalBitrate]).tail
                 else s.bitrateHistory ++ [({ s with networkMetrics := m }
                     : BitrateCalculator).calculateOptimalBitrate] } := by
  simp only [BitrateCalculator.updateNetworkMetrics]
  rw [if_neg (not_not_intro hauto), if_pos hsh]
  simp only [BitrateCalculator.addToHistory]

/-- C6 (amended): with repeated identical metrics, an update that leaves the
committed bitrate unchanged is absorbing - every further update with the
same metrics leaves the committed bitrate unchanged as well. (After the
first committed change, however, further changes can still be committed
while the smoothing step stays above the stability threshold - see the
counterexample.) -/
theorem C6_stability_absorbing (s : BitrateCalculator) (m : NetworkMetrics)
    (h : (s.updateNetworkMetrics m).currentBitrate = s.currentBitrate) :
    ((s.updateNetworkMetrics m).updateNetworkMetrics m).currentBitrate
      = (s.updateNetworkMetrics m).currentBitrate := by
  by_cases hauto : s.autoAdaptationEnabled = true
  · by_cases hsh : ({ s with networkMetrics := m }
        : BitrateCalculator).shouldUpdateBitrate
        (({ s with networkMetrics := m }
          : BitrateCalculator).calculateOptimalBitrate) = true
    · -- the first update committed its candidate nb; by h, nb equals the
      -- old bitrate, and the second update recommits the same nb
      have e1 := updNet_eq_of_should s m hauto hsh
      rw [e1] at h
      have hnb : ({ s with networkMetrics := m }
          : BitrateCalculator).calculateOptimalBitrate = s.currentBitrate := by
        simpa using h
      rw [e1]
      have hc2 := calcOptimal_congr ({ s with networkMetrics := m })
        ({ s with networkMetrics := m,
                  currentBitrate := ({ s with networkMetrics := m }
                    : BitrateCalculator).calculateOptimalBitrate,
                  recommendedBitrate := ({ s with networkMetrics := m }
                    : BitrateCalculator).calculateOptimalBitrate,
                  bitrateChanges := s.bitrateChanges + 1,
                  bitrateHistory :=
                    if (s.bitrateHistory ++ [({ s with networkMetrics := m }
                        : BitrateCalculator).calculateOptimalBitrate]).length > 100
                    then (s.bitrateHistory ++ [({ s with networkMetrics := m }
                        : BitrateCalculator).calculateOptimalBitrate]).tail
                    else s.bitrateHistory ++ [({ s with networkMetrics := m }
                        : BitrateCalculator).calculateOptimalBitrate] })
        rfl rfl rfl hnb rfl rfl rfl
      have hs2 := shouldUpdate_congr ({ s with networkMetrics := m })
        ({ s with networkMetrics := m,
                  currentBitrate := ({ s with networkMetrics := m }
                    : BitrateCalculator).calculateOptimalBitrate,
                  recommendedBitrate := ({ s with networkMetrics := m }
                    : BitrateCalculator).calculateOptimalBitrate,
                  bitrateChanges := s.bitrateChanges + 1,
                  bitrateHistory :=
                    if (s.bitrateHistory ++ [({ s with networkMetrics := m }
                        : BitrateCalculator).calculateOptimalBitrate]).length > 100
                    then (s.bitrateHistory ++ [({ s with networkMetrics := m }
                        : BitrateCalculator).calculateOptimalBitrate]).tail
                    else s.bitrateHistory ++ [({ s with networkMetrics := m }
                        : BitrateCalculator).calculateOptimalBitrate] })
        (({ s with networkMetrics := m }
          : BitrateCalculator).calculateOptimalBitrate) hnb rfl
      have e2 := updNet_eq_of_should
        ({ s with networkMetrics := m,
                  currentBitrate := ({ s with networkMetrics := m }
                    : BitrateCalculator).calculateOptimalBitrate,
                  recommendedBitrate := ({ s with networkMetrics := m }
                    : BitrateCalculator).calculateOptimalBitrate,
                  bitrateChanges := s.bitrateChanges + 1,
                  bitrateHistory :=
                    if (s.bitrateHistory ++ [({ s with networkMetrics := m }
                        : BitrateCalculator).calculateOptimalBitrate]).length > 100
                    then (s.bitrateHistory ++ [({ s with networkMetrics := m }
                        : BitrateCalculator).calculateOptimalBitrate]).tail
                    else s.bitrateHistory ++ [({ s with networkMetrics := m }
                        : BitrateCalculator).calculateOptimalBitrate] })
        m hauto (by rw [hc2]; rw [hs2]; exact hsh)
      rw [e2]
      simpa using hc2
    · have e1 := updNet_eq_of_not_should s m hauto hsh
      rw [e1]
      have e2 := updNet_eq_of_not_should ({ s with networkMetrics := m }) m
        hauto (by exact hsh)
      rw [e2]
  · have e1 := updNet_eq_of_not_auto s m hauto
    rw [e1]
    have e2 := updNet_eq_of_not_auto ({ s with networkMetrics := m }) m hauto
    rw [e2]

/-- Truncation is the identity on whole numbers given as rational numerals
3200, 6200, 7400, 6140, 4880 and 5664 (the values arising in the concrete
bitrate runs below). -/
theorem ratTruncToNat_vals :
    ratTruncToNat (3200 : ℚ) = 3200 ∧ ratTruncToNat (6200 : ℚ) = 6200 ∧
    ratTruncToNat (7400 : ℚ) = 7400 ∧ ratTruncToNat (6140 : ℚ) = 6140 ∧
    ratTruncToNat (4880 : ℚ) = 4880 ∧ ratTruncToNat (5664 : ℚ) = 5664 := by
  refine ⟨?_, ?_, ?_, ?_, ?_, ?_⟩ <;> (norm_num [ratTruncToNat, ratTruncToInt]; omega)

/-- C6 counterexample: starting at 9200 bps and feeding the identical bad
metrics twice, the controller commits a change on the first update
(9200 to 7400) and commits another on the second (7400 to 6140): after the
first committed change further changes are still committed. -/
theorem C6_counterexample :
    bc0.currentBitrate = 9200 ∧
    (bc0.updateNetworkMetrics badNet).currentBitrate = 7400 ∧
    ((bc0.updateNetworkMetrics badNet).updateNetworkMetrics badNet).currentBitrate
      = 6140 ∧
    ((bc0.updateNetworkMetrics badNet).updateNetworkMetrics badNet).currentBitrate
      ≠ (bc0.updateNetworkMetrics badNet).currentBitrate := by
  obtain ⟨r3200, r6200, r7400, r6140, -, -⟩ := ratTruncToNat_vals
  have hnet : calculateNetworkBasedBitrate badNet = 3200 := by
    norm_num [calculateNetworkBasedBitrate, badNet]
  have haud : calculateAudioBasedBitrate AudioMetrics.default = 3200 := by
    norm_num [calculateAudioBasedBitrate, AudioMetrics.default]
  have e0 : bc0 =
      { initialized := true, currentBitrate := 9200, recommendedBitrate := 9200,
        targetQuality := 1/2, adaptationSpeed := 3/10, stabilityThreshold := 1/10,
        qualityMode := .adaptive, autoAdaptationEnabled := true,
        networkMetrics := .default, audioMetrics := .default,
        bitrateHistory := [9200], bitrateChanges := 0 } := by
    norm_num [bc0, BitrateCalculator.init, BitrateCalculator.new,
      clampBitrate, BitrateCalculator.addToHistory]
  have hopt1 :
      ({ initialized := true, currentBitrate := 9200, recommendedBitrate := 9200,
         targetQuality := 1/2, adaptationSpeed := 3/10, stabilityThreshold := 1/10,
         qualityMode := .adaptive, autoAdaptationEnabled := true,
         networkMetrics := badNet, audioMetrics := .default,
         bitrateHistory := [9200], bitrateChanges := 0 }
        : BitrateCalculator).calculateOptimalBitrate = 7400 := by
    simp only [BitrateCalculator.calculateOptimalBitrate,
      BitrateCalculator.calculateOptimalBitrateWith,
      BitrateCalculator.applyQualityMode, BitrateCalculator.smoothBitrateTransition,
      hnet, haud]
    norm_num [r3200, r6200, r7400, clampBitrate]
  have e1 : bc0.updateNetworkMetrics badNet =
      { initialized := true, currentBitrate := 7400, recommendedBitrate := 7400,
        targetQuality := 1/2, adaptationSpeed := 3/10, stabilityThreshold := 1/10,
        qualityMode := .adaptive, autoAdaptationEnabled := true,
        networkMetrics := badNet, audioMetrics := .default,
        bitrateHistory := [9200, 7400], bitrateChanges := 1 } := by
    rw [e0]
    rw [updNet_eq_of_should _ badNet rfl
      (by rw [hopt1]; norm_num [BitrateCalculator.shouldUpdateBitrate])]
    norm_num [hopt1]
  have hopt2 :
      ({ initialized := true, currentBitrate := 7400, recommendedBitrate := 7400,
         targetQuality := 1/2, adaptationSpeed := 3/10, stabilityThreshold := 1/10,
         qualityMode := .adaptive, autoAdaptationEnabled := true,
         networkMetrics := badNet, audioMetrics := .default,
         bitrateHistory := [9200, 7400], bitrateChanges := 1 }
        : BitrateCalculator).calculateOptimalBitrate = 6140 := by
    simp only [BitrateCalculator.calculateOptimalBitrate,
      BitrateCalculator.calculateOptimalBitrateWith,
      BitrateCalculator.applyQualityMode, BitrateCalculator.smoothBitrateTransition,
      hnet, haud]
    norm_num [r3200, r6200, r6140, clampBitrate]
  have e2 : (bc0.updateNetworkMetrics badNet).updateNetworkMetrics badNet =
      { initialized := true, currentBitrate := 6140, recommendedBitrate := 6140,
        targetQuality := 1/2, adaptationSpeed := 3/10, stabilityThreshold := 1/10,
        qualityMode := .adaptive, autoAdaptationEnabled := true,
        networkMetrics := badNet, audioMetrics := .default,
        bitrateHistory := [9200, 7400, 6140], bitrateChanges := 2 } := by
    rw [e1]
    rw [updNet_eq_of_should _ badNet rfl
      (by rw [hopt2]; norm_num [BitrateCalculator.shouldUpdateBitrate])]
    norm_num [hopt2]
  exact ⟨by rw [e0], by rw [e1], by rw [e2], by rw [e2, e1]; norm_num⟩

/-- C6 witness: a controller at 6000 bps fed the default (clean) metrics
commits no change, and by the theorem the no-change state is absorbing. -/
theorem C6_witness :
    ((BitrateCalculator.new.init 6000).updateNetworkMetrics
        NetworkMetrics.default).currentBitrate
      = (BitrateCalculator.new.init 6000).currentBitrate ∧
    (((BitrateCalculator.new.init 6000).updateNetworkMetrics
        NetworkMetrics.default).updateNetworkMetrics
        NetworkMetrics.default).currentBitrate
      = ((BitrateCalculator.new.init 6000).updateNetworkMetrics
        NetworkMetrics.default).currentBitrate := by
  obtain ⟨-, r6200, -, -, r4880, r5664⟩ := ratTruncToNat_vals
  have hnet : calculateNetworkBasedBitrate NetworkMetrics.default = 6000 := by
    norm_num [calculateNetworkBasedBitrate, NetworkMetrics.default]
  have haud : calculateAudioBasedBitrate AudioMetrics.default = 3200 := by
    norm_num [calculateAudioBasedBitrate, AudioMetrics.default]
  have e0 : BitrateCalculator.new.init 6000 =
      { initialized := true, currentBitrate := 6000, recommendedBitrate := 6000,
        targetQuality := 1/2, adaptationSpeed := 3/10, stabilityThreshold := 1/10,
        qualityMode := .adaptive, autoAdaptationEnabled := true,
        networkMetrics := .default, audioMetrics := .default,
        bitrateHistory := [6000], bitrateChanges := 0 } := by
    norm_num [BitrateCalculator.init, BitrateCalculator.new,
      clampBitrate, BitrateCalculator.addToHistory]
  have r4880q : ratTruncToNat ((6000 : ℚ) * (6/10) + (3200 : ℚ) * (4/10)) = 4880 := by
    norm_num [ratTruncToNat, ratTruncToInt]
    omega
  have hopt :
      ({ initialized := true, currentBitrate := 6000, recommendedBitrate := 6000,
         targetQuality := 1/2, adaptationSpeed := 3/10, stabilityThreshold := 1/10,
         qualityMode := .adaptive, autoAdaptationEnabled := true,
         networkMetrics := NetworkMetrics.default, audioMetrics := .default,
         bitrateHistory := [6000], bitrateChanges := 0 }
        : BitrateCalculator).calculateOptimalBitrate = 5664 := by
    simp only [BitrateCalculator.calculateOptimalBitrate,
      BitrateCalculator.calculateOptimalBitrateWith,
      BitrateCalculator.applyQualityMode, BitrateCalculator.smoothBitrateTransition,
      hnet, haud]
    norm_num [r4880, r6200, r5664, clampBitrate]
  have hfirst : ((BitrateCalculator.new.init 6000).updateNetworkMetrics
      NetworkMetrics.default).currentBitrate
      = (BitrateCalculator.new.init 6000).currentBitrate := by
    rw [e0]
    rw [updNet_eq_of_not_should _ NetworkMetrics.default rfl
      (by rw [hopt]; norm_num [BitrateCalculator.shouldUpdateBitrate])]
  exact ⟨hfirst,
    C6_stability_absorbing (BitrateCalculator.new.init 6000)
      NetworkMetrics.default hfirst⟩

/-- C7 (amended): every received datagram smaller than 4 bytes is discarded:
no packet reaches the playback buffer, no packet callback fires, the receive
loop continues (the state changes in no field but the general
received-datagrams counter, which counts it like any other reception —
there is no malformed-specific counter). -/
theorem C7_short_datagram_discarded (e : Endian) (s : UDPManager) (d : List Nat)
    (h1 : 0 < d.length) (h2 : d.length < 4) :
    receiveDatagram e s d =
      ({ s with receivedPackets := s.receivedPackets + 1 }, none) := by
  rcases d with _ | ⟨a, _ | ⟨b, _ | ⟨c, _ | ⟨x, rest⟩⟩⟩⟩
  · simp at h1
  · simp [receiveDatagram, deserializePacket]
  · simp [receiveDatagram, deserializePacket]
  · simp [receiveDatagram, deserializePacket]
  · simp at h2
    omega

/-- C7 witness: the 3-byte datagram of scenario E5 at a concrete listener. -/
theorem C7_witness :
    (0 < ([1, 2, 3] : List Nat).length) ∧ (([1, 2, 3] : List Nat).length < 4) ∧
    receiveDatagram .little udpListener [1, 2, 3] =
      ({ udpListener with receivedPackets := udpListener.receivedPackets + 1 },
        none) :=
  ⟨by decide, by decide,
    C7_short_datagram_discarded .little udpListener [1, 2, 3]
      (by decide) (by decide)⟩

/-- C7 counterexample: the 3-byte datagram is not counted by any
malformed-specific counter — the only counters UDPManager exposes are sent,
received and failed-send, and their deltas after the malformed reception
(received +1, others unchanged) are identical to the deltas after a
well-formed reception, so no exposed counter distinguishes malformed
datagrams. -/
theorem C7_counterexample :
    (receiveDatagram .little udpListener [1, 2, 3]).2 = none ∧
    (receiveDatagram .little udpListener [1, 2, 3]).1.receivedPackets = 1 ∧
    (receiveDatagram .little udpListener [1, 2, 3]).1.sentPackets = 0 ∧
    (receiveDatagram .little udpListener [1, 2, 3]).1.failedSends = 0 ∧
    (receiveDatagram .little udpListener [0, 0, 0, 0, 7]).2 ≠ none ∧
    (receiveDatagram .little udpListener [0, 0, 0, 0, 7]).1.receivedPackets = 1 ∧
    (receiveDatagram .little udpListener [0, 0, 0, 0, 7]).1.sentPackets = 0 ∧
    (receiveDatagram .little udpListener [0, 0, 0, 0, 7]).1.failedSends = 0 := by
  decide

end NovaVoice
